import Mathlib

/-!
Verification of the settings and profiles subsystem of `src/prefect/settings.py`.

The embedding models Python values that occur as raw setting values with the
inductive `PValue` (Python `None`, booleans, integers, floats as rationals, and
strings; all numeric defaults in the source are integral, and no claim performs
non-trivial float arithmetic).  Python dictionaries keyed by setting names are
modelled pointwise as functions `String → Option PValue`; the pointwise view is
faithful for every operation the claims exercise (lookup, `{**a, **b}` style
merging, key deletion and key-set comparison).  Mappings keyed by `Setting`
objects in the source (`updates`, `set_defaults`, profile settings) are
modelled keyed by the setting's registered name, exactly as the source
converts them (`setting.name`) before use.  `Settings` construction is
modelled with the environment-variable source of pydantic `BaseSettings`:
fields absent from the keyword arguments are filled from the process
environment (and marked explicitly set) before falling back to declared
defaults.
-/

/-- A raw Python value as stored in a settings field or a profile. -/
inductive PValue where
  | vNone
  | vBool (b : Bool)
  | vInt (n : Int)
  | vNum (q : Rat)
  | vStr (s : String)
deriving DecidableEq

/-- A Python dict from setting names to raw values, viewed pointwise. -/
abbrev PDict : Type := String → Option PValue

/-- The empty Python dict. -/
def emptyPDict : PDict := fun _ => none

/-- Python's `repr` of a string, as used in f-string `!r` interpolations. -/
def pyRepr (s : String) : String := "'" ++ s ++ "'"

/-- Python `{**a, **b}`: entries of `b` override entries of `a`. -/
def pyUnion (a b : PDict) : PDict := fun k =>
  match b k with
  | some v => some v
  | none => a k

/-- Dropping every key whose value is Python `None` from a dict, as done by the
`update_profile` merge loops in the source. -/
def dropNones (d : PDict) : PDict := fun k =>
  match d k with
  | some PValue.vNone => none
  | some v => some v
  | none => none

/-- Python `a or b` on optional strings: `None` and `""` are falsy. -/
def pyOrStr (a b : Option String) : Option String :=
  match a with
  | some s => if s = "" then b else some s
  | none => b

/-- One setting declaration: its registered name and its declared default raw
value (the raw default, before any `value_callback` derivation). -/
structure SettingDecl where
  name : String
  defaultValue : PValue
deriving DecidableEq

/-- The registry of all settings declared in `src/prefect/settings.py`, in
declaration order, with their raw defaults.  Paths and templated strings keep
their literal text; `timedelta` defaults are carried as total seconds. -/
def SETTING_VARIABLES : List SettingDecl := [
  ⟨"PREFECT_HOME", PValue.vStr "~/.prefect"⟩,
  ⟨"PREFECT_DEBUG_MODE", PValue.vBool false⟩,
  ⟨"PREFECT_TEST_MODE", PValue.vBool false⟩,
  ⟨"PREFECT_API_URL", PValue.vNone⟩,
  ⟨"PREFECT_API_KEY", PValue.vNone⟩,
  ⟨"PREFECT_CLOUD_URL", PValue.vStr "https://api-beta.prefect.io/api"⟩,
  ⟨"PREFECT_API_REQUEST_TIMEOUT", PValue.vNum 30⟩,
  ⟨"PREFECT_PROFILES_PATH", PValue.vStr "${PREFECT_HOME}/profiles.toml"⟩,
  ⟨"PREFECT_LOGGING_LEVEL", PValue.vStr "INFO"⟩,
  ⟨"PREFECT_LOGGING_SERVER_LEVEL", PValue.vStr "WARNING"⟩,
  ⟨"PREFECT_LOGGING_SETTINGS_PATH", PValue.vStr "${PREFECT_HOME}/logging.yml"⟩,
  ⟨"PREFECT_LOGGING_EXTRA_LOGGERS", PValue.vStr ""⟩,
  ⟨"PREFECT_LOGGING_ORION_ENABLED", PValue.vBool true⟩,
  ⟨"PREFECT_LOGGING_ORION_BATCH_INTERVAL", PValue.vNum 2⟩,
  ⟨"PREFECT_LOGGING_ORION_BATCH_SIZE", PValue.vInt 4000000⟩,
  ⟨"PREFECT_LOGGING_ORION_MAX_LOG_SIZE", PValue.vInt 1000000⟩,
  ⟨"PREFECT_AGENT_QUERY_INTERVAL", PValue.vNum 5⟩,
  ⟨"PREFECT_AGENT_PREFETCH_SECONDS", PValue.vInt 10⟩,
  ⟨"PREFECT_ORION_DATABASE_CONNECTION_URL",
    PValue.vStr "sqlite+aiosqlite:////${PREFECT_HOME}/orion.db"⟩,
  ⟨"PREFECT_ORION_DATABASE_ECHO", PValue.vBool false⟩,
  ⟨"PREFECT_ORION_DATABASE_MIGRATE_ON_START", PValue.vBool true⟩,
  ⟨"PREFECT_ORION_DATABASE_TIMEOUT", PValue.vNum 1⟩,
  ⟨"PREFECT_ORION_DATABASE_CONNECTION_TIMEOUT", PValue.vNum 5⟩,
  ⟨"PREFECT_ORION_SERVICES_SCHEDULER_LOOP_SECONDS", PValue.vNum 60⟩,
  ⟨"PREFECT_ORION_SERVICES_SCHEDULER_DEPLOYMENT_BATCH_SIZE", PValue.vInt 100⟩,
  ⟨"PREFECT_ORION_SERVICES_SCHEDULER_MAX_RUNS", PValue.vInt 100⟩,
  ⟨"PREFECT_ORION_SERVICES_SCHEDULER_MAX_SCHEDULED_TIME", PValue.vNum 8640000⟩,
  ⟨"PREFECT_ORION_SERVICES_SCHEDULER_INSERT_BATCH_SIZE", PValue.vInt 500⟩,
  ⟨"PREFECT_ORION_SERVICES_LATE_RUNS_LOOP_SECONDS", PValue.vNum 5⟩,
  ⟨"PREFECT_ORION_SERVICES_LATE_RUNS_AFTER_SECONDS", PValue.vNum 5⟩,
  ⟨"PREFECT_ORION_API_DEFAULT_LIMIT", PValue.vInt 200⟩,
  ⟨"PREFECT_ORION_API_HOST", PValue.vStr "127.0.0.1"⟩,
  ⟨"PREFECT_ORION_API_PORT", PValue.vInt 4200⟩,
  ⟨"PREFECT_ORION_UI_ENABLED", PValue.vBool true⟩,
  ⟨"PREFECT_ORION_UI_API_URL", PValue.vNone⟩,
  ⟨"PREFECT_ORION_ANALYTICS_ENABLED", PValue.vBool true⟩,
  ⟨"PREFECT_ORION_SERVICES_SCHEDULER_ENABLED", PValue.vBool true⟩,
  ⟨"PREFECT_ORION_SERVICES_LATE_RUNS_ENABLED", PValue.vBool true⟩]

/-- The registered setting names, in declaration order. -/
def settingNames : List String := SETTING_VARIABLES.map SettingDecl.name

/-- Whether a key is the name of a registered setting. -/
def isDeclared (k : String) : Bool := settingNames.contains k

/-- The declared default raw value of a registered setting name (an
unregistered name is never consulted; it is mapped to `vNone`). -/
def defaultOf (k : String) : PValue :=
  match SETTING_VARIABLES.find? (fun d => d.name == k) with
  | some d => d.defaultValue
  | none => PValue.vNone

/-- A `Settings` snapshot: the record of explicitly-set raw values, i.e. the
content of `self.dict(exclude_unset=True)` in the source.  A field that is not
explicitly set resolves to its declared default. -/
structure Settings where
  explicitVals : PDict

/-- The raw value of a setting in a snapshot (`getattr(self, name)` without
any `value_callback` derivation): the explicit value if the field was set,
else the declared default. -/
def Settings.rawValue (s : Settings) (k : String) : PValue :=
  (s.explicitVals k).getD (defaultOf k)

/-- Python `<` on the two integer-typed logging settings compared by the
validator (field-level coercion upstream guarantees integers there). -/
def intLt : PValue → PValue → Bool
  | PValue.vInt a, PValue.vInt b => a < b
  | _, _ => false

/-- The cross-setting root validator from the source: rejects the values dict
when `PREFECT_LOGGING_ORION_BATCH_SIZE < PREFECT_LOGGING_ORION_MAX_LOG_SIZE`,
and otherwise returns the values unchanged. -/
def max_log_size_smaller_than_batch_size (values : String → PValue) :
    Except String (String → PValue) :=
  if intLt (values "PREFECT_LOGGING_ORION_BATCH_SIZE")
      (values "PREFECT_LOGGING_ORION_MAX_LOG_SIZE") then
    Except.error
      "`PREFECT_LOGGING_ORION_MAX_LOG_SIZE` cannot be larger than `PREFECT_LOGGING_ORION_BATCH_SIZE`"
  else
    Except.ok values

/-- The environment-variable source of pydantic `BaseSettings`: the process
environment restricted to declared setting names (one variable per setting,
named exactly as the setting; values carried raw, with the string wire codec
modelled as the identity as in the export model). -/
def envLayer (env : PDict) : PDict := fun k =>
  if isDeclared k then env k else none

/-- Constructing `Settings(**kwargs)` under process environment `env`:
`Settings` inherits pydantic `BaseSettings`, so every field is filled from the
keyword arguments first, then from the environment variable of the same
declared name, and a field from either source is marked explicitly set; only
the remaining fields resolve to their declared defaults.  The
`post_root_validators` pass then runs over the fully resolved values and may
reject the construction. -/
def settingsNew (env kwargs : PDict) : Except String Settings :=
  match max_log_size_smaller_than_batch_size
      (fun k => (pyUnion (envLayer env) kwargs k).getD (defaultOf k)) with
  | Except.error e => Except.error e
  | Except.ok _ => Except.ok ⟨pyUnion (envLayer env) kwargs⟩

/-- `Settings.copy_with_update` from the source: builds the keyword arguments
as the Python dict merge of `set_defaults`, then the explicitly-set values of
`self` minus the `restore_defaults` names, then `updates`, and constructs a
new validated `Settings` from them via the class constructor, under the
ambient process environment `env`. -/
def Settings.copy_with_update (s : Settings) (env updates set_defaults : PDict)
    (restore_defaults : List String) : Except String Settings :=
  settingsNew env
    (pyUnion
      (pyUnion set_defaults
        (fun k => if k ∈ restore_defaults then none else s.explicitVals k))
      updates)

/-- Modelled from the spec: `Settings.to_environment_variables` is exercised by
the repository's tests but its body is not under `src/`.  Following the spec
(values are exported in raw, pre-derivation form; `exclude_unset = true`
restricts the export to explicitly-set settings) and the tests (only declared
settings are exported, and a setting whose value is Python `None` is omitted
from the export), with the string wire codec modelled as the identity
embedding of raw values, since the claims concern which settings are exported
and with which raw values, not the textual encoding. -/
def Settings.to_environment_variables (s : Settings) (exclude_unset : Bool) :
    String → Option PValue := fun k =>
  if isDeclared k then
    match (if exclude_unset then s.explicitVals k else some (s.rawValue k)) with
    | some v => if v = PValue.vNone then none else some v
    | none => none
  else none

/-- Modelled from the spec: constructing a `Settings` snapshot from an
environment-variable mapping (`resolve_from_environment`) is pydantic
`BaseSettings` behavior, not code under `src/`.  Per the spec, every declared
setting present in the environment is explicitly set to the environment's
value, and every other setting is left unset (resolving to its default). -/
def resolve_from_environment (env : String → Option PValue) : Settings :=
  ⟨fun k => if isDeclared k then env k else none⟩

/-- An in-memory profile: a name, a dict of setting overrides keyed by the
setting's registered name, and an optional source path. -/
structure Profile where
  name : String
  settings : PDict
  source : Option String

/-- A collection of profiles keyed by name, plus the active profile name.
Mutating methods of the source class are modelled as functions returning the
post-call collection together with the raised error message, if any; a raise
in the source occurs before any mutation, so the post-call collection on an
error is the receiver unchanged. -/
structure ProfilesCollection where
  profiles_by_name : String → Option Profile
  active_name : Option String

/-- `ProfilesCollection.set_active`: raises on an unknown non-null name,
otherwise records the new active name. -/
def ProfilesCollection.set_active (c : ProfilesCollection)
    (name : Option String) : ProfilesCollection × Option String :=
  match name with
  | some n =>
    if (c.profiles_by_name n).isSome then
      (⟨c.profiles_by_name, some n⟩, none)
    else
      (c, some ("Unknown profile name " ++ pyRepr n ++ "."))
  | none => (⟨c.profiles_by_name, none⟩, none)

/-- `ProfilesCollection.update_profile`: if the profile's name already exists,
store a merged profile whose settings are the existing settings updated by the
new ones with every `None`-valued key dropped; otherwise store the given
profile verbatim. -/
def ProfilesCollection.update_profile (c : ProfilesCollection) (p : Profile) :
    ProfilesCollection :=
  match c.profiles_by_name p.name with
  | some existing =>
    ⟨fun n =>
      if n = p.name then
        some ⟨p.name, dropNones (pyUnion existing.settings p.settings), p.source⟩
      else c.profiles_by_name n,
     c.active_name⟩
  | none =>
    ⟨fun n => if n = p.name then some p else c.profiles_by_name n,
     c.active_name⟩

/-- `ProfilesCollection.remove_profile`: `dict.pop` of the name, raising a
`KeyError` when absent. -/
def ProfilesCollection.remove_profile (c : ProfilesCollection) (name : String) :
    ProfilesCollection × Option String :=
  match c.profiles_by_name name with
  | some _ =>
    (⟨fun n => if n = name then none else c.profiles_by_name n, c.active_name⟩,
     none)
  | none => (c, some ("KeyError: " ++ pyRepr name))

/-- `ProfilesCollection.without_profile_source`: keep only profiles whose
source differs from the given path; the active name carries over unchecked. -/
def ProfilesCollection.without_profile_source (c : ProfilesCollection)
    (path : String) : ProfilesCollection :=
  ⟨fun n =>
    match c.profiles_by_name n with
    | some p => if p.source = some path then none else some p
    | none => none,
   c.active_name⟩

/-- `ProfilesCollection.with_new_profiles`: union of the two collections with
the other collection's profiles winning on a shared name, and the active name
chosen by Python `other.active_name or self.active_name`. -/
def ProfilesCollection.with_new_profiles (c other : ProfilesCollection) :
    ProfilesCollection :=
  ⟨fun n =>
    match other.profiles_by_name n with
    | some p => some p
    | none => c.profiles_by_name n,
   pyOrStr other.active_name c.active_name⟩

/-- The collection invariant: the active name, if set, exists as a profile. -/
def activeValid (c : ProfilesCollection) : Bool :=
  match c.active_name with
  | some a => (c.profiles_by_name a).isSome
  | none => true

/-- The module-level `update_profile(name, **values)` from the source,
modelled on an in-memory collection (the surrounding `load_profiles` /
`save_profiles` file round-trip is persistence of the same collection): adds
or merges the profile and returns the updated collection together with the
resulting settings of the named profile. -/
def update_profile (c : ProfilesCollection) (name : String) (values : PDict) :
    ProfilesCollection × PDict :=
  let c2 := c.update_profile ⟨name, values, none⟩
  (c2,
   match c2.profiles_by_name name with
   | some p => p.settings
   | none => emptyPDict)

/-- A value in a parsed TOML profiles document: either a primitive value or a
nested table. -/
inductive TomlVal where
  | prim (v : PValue)
  | table (entries : List (String × TomlVal))

/-- A parsed TOML profiles document: the optional top-level `active` name and
the `profiles` section as an ordered list of named flat-or-nested entries. -/
structure ProfilesDoc where
  active : Option String
  profiles : List (String × List (String × TomlVal))

/-- `Profile.map_names_to_settings`, key by key in document order: a key that
is a registered setting name is kept; any other key raises
`ValueError("Unknown setting {key!r}.")` immediately. -/
def map_names_to_settings :
    List (String × TomlVal) → Except String (List (String × TomlVal))
  | [] => Except.ok []
  | (k, v) :: rest =>
    if isDeclared k then
      match map_names_to_settings rest with
      | Except.error e => Except.error e
      | Except.ok tl => Except.ok ((k, v) :: tl)
    else
      Except.error ("Unknown setting " ++ pyRepr k ++ ".")

/-- Sequencing a fallible function over a list, stopping at the first error,
as a Python list comprehension over fallible constructors does. -/
def mapExcept {α β : Type} (f : α → Except String β) :
    List α → Except String (List β)
  | [] => Except.ok []
  | x :: xs =>
    match f x with
    | Except.error e => Except.error e
    | Except.ok y =>
      match mapExcept f xs with
      | Except.error e => Except.error e
      | Except.ok ys => Except.ok (y :: ys)

/-- A profile as produced by the loading path, keeping the validated document
entries (which may include nested tables as values). -/
structure RawProfile where
  name : String
  settings : List (String × TomlVal)
  source : Option String

/-- The collection produced by the loading path. -/
structure RawProfilesCollection where
  profiles : List RawProfile
  active : Option String

/-- `_read_profiles_from`: build one `Profile` per named section, validating
every key through `map_names_to_settings`; the first unknown key anywhere
aborts the whole load. -/
def read_profiles_from (path : String) (doc : ProfilesDoc) :
    Except String RawProfilesCollection :=
  match mapExcept
      (fun p =>
        match map_names_to_settings p.2 with
        | Except.error e => Except.error e
        | Except.ok s => Except.ok (⟨p.1, s, some path⟩ : RawProfile))
      doc.profiles with
  | Except.error e => Except.error e
  | Except.ok ps => Except.ok ⟨ps, doc.active⟩

/-- The process-wide `_FROM_ENV_CACHE` of `get_settings_from_env`, together
with an allocation counter: constructing a `Settings` instance is modelled as
allocating a fresh instance identifier, since the claim concerns instance
identity.  The cache key `hash(tuple(os.environ.items()))` is modelled as the
item list itself (the source's fingerprint of the environment content). -/
structure EnvCacheState where
  entries : List (List (String × String) × Nat)
  nextId : Nat

/-- First-match lookup of an environment fingerprint in the cache. -/
def cacheLookup : List (List (String × String) × Nat) →
    List (String × String) → Option Nat
  | [], _ => none
  | (k, i) :: rest, key => if k = key then some i else cacheLookup rest key

/-- `get_settings_from_env`: return the cached instance for the current
environment content if present, otherwise construct (allocate) a new instance
and cache it. -/
def get_settings_from_env (env : List (String × String)) (st : EnvCacheState) :
    Nat × EnvCacheState :=
  match cacheLookup st.entries env with
  | some i => (i, st)
  | none => (st.nextId, ⟨st.entries ++ [(env, st.nextId)], st.nextId + 1⟩)

-- Theorems

def envWithKey : PDict :=
  fun k => if k = "PREFECT_API_KEY" then some (PValue.vStr "env-key") else none

def envSetBase : Settings :=
  ⟨fun k => if k = "PREFECT_API_KEY" then some (PValue.vStr "base-key") else none⟩

/-- C1 counterexample: under a process environment defining
`PREFECT_API_KEY`, restoring that setting to default in `copy_with_update`
does not yield its declared default `None`: the class constructor re-reads the
environment value, refuting the claim's final declared-default fallback. -/
theorem copy_with_update_restore_reads_env :
    ∃ res,
      envSetBase.copy_with_update envWithKey emptyPDict emptyPDict
          ["PREFECT_API_KEY"] = Except.ok res ∧
      res.rawValue "PREFECT_API_KEY" = PValue.vStr "env-key" ∧
      defaultOf "PREFECT_API_KEY" = PValue.vNone ∧
      ¬ res.rawValue "PREFECT_API_KEY" = defaultOf "PREFECT_API_KEY" := by
  have h : envSetBase.copy_with_update envWithKey emptyPDict emptyPDict
      ["PREFECT_API_KEY"] =
      Except.ok ⟨pyUnion (envLayer envWithKey)
        (pyUnion
          (pyUnion emptyPDict
            (fun k => if k ∈ ["PREFECT_API_KEY"] then none
              else envSetBase.explicitVals k))
          emptyPDict)⟩ := rfl
  exact ⟨_, h, by decide, by decide, by decide⟩

/-- C1 (amended): whenever `copy_with_update` succeeds, the value of each
setting equals: the update value if the setting is in `updates`; otherwise
`base`'s value if the setting was explicitly set in `base` and is not
restored; otherwise the `set_defaults` value if present; otherwise the
process environment's value if that variable is present; otherwise the
setting's declared default.  The keyword arguments shadow the environment, so
the environment reaches only settings in none of the three explicit layers,
and restoring an environment-present setting re-exposes the environment
value, not the declared default. -/
theorem copy_with_update_precedence (s : Settings) (env u d : PDict)
    (r : List String) (res : Settings)
    (h : s.copy_with_update env u d r = Except.ok res) (k : String) :
    res.rawValue k =
      match u k with
      | some v => v
      | none =>
        match (if k ∈ r then none else s.explicitVals k) with
        | some v => v
        | none =>
          match d k with
          | some v => v
          | none =>
            match envLayer env k with
            | some v => v
            | none => defaultOf k := by
  unfold Settings.copy_with_update settingsNew at h
  split at h
  · simp at h
  · injection h with h
    subst h
    simp only [Settings.rawValue, pyUnion]
    cases hu : u k with
    | some v => simp [hu]
    | none =>
      simp only [hu]
      cases hb : (if k ∈ r then none else s.explicitVals k) with
      | some v => simp [hb]
      | none =>
        simp only [hb]
        cases hd : d k with
        | some v => simp [hd]
        | none =>
          simp only [hd]
          cases he : envLayer env k <;> simp [he, Option.getD]

def precEnv : PDict := fun k =>
  if k = "PREFECT_API_KEY" then some (PValue.vStr "env-key")
  else if k = "PREFECT_ORION_API_HOST" then some (PValue.vStr "0.0.0.0")
  else none

def precBase : Settings :=
  ⟨fun k => if k = "PREFECT_API_KEY" then some (PValue.vStr "base") else none⟩

def precUpdates : PDict :=
  fun k => if k = "PREFECT_LOGGING_LEVEL" then some (PValue.vStr "ERROR") else none

def precDefaults : PDict :=
  fun k => if k = "PREFECT_API_KEY" then some (PValue.vStr "layered") else none

theorem copy_with_update_precedence_witness :
    ∃ res,
      precBase.copy_with_update precEnv precUpdates precDefaults
          ["PREFECT_API_KEY"] = Except.ok res ∧
      res.rawValue "PREFECT_LOGGING_LEVEL" = PValue.vStr "ERROR" ∧
      res.rawValue "PREFECT_API_KEY" = PValue.vStr "layered" ∧
      res.rawValue "PREFECT_ORION_API_HOST" = PValue.vStr "0.0.0.0" ∧
      res.rawValue "PREFECT_LOGGING_SERVER_LEVEL" = PValue.vStr "WARNING" := by
  have h : precBase.copy_with_update precEnv precUpdates precDefaults
      ["PREFECT_API_KEY"] =
      Except.ok ⟨pyUnion (envLayer precEnv)
        (pyUnion
          (pyUnion precDefaults
            (fun k => if k ∈ ["PREFECT_API_KEY"] then none
              else precBase.explicitVals k))
          precUpdates)⟩ := rfl
  refine ⟨_, h, ?_, ?_, ?_, ?_⟩
  · rw [copy_with_update_precedence _ _ _ _ _ _ h "PREFECT_LOGGING_LEVEL"]
    rfl
  · rw [copy_with_update_precedence _ _ _ _ _ _ h "PREFECT_API_KEY"]
    rfl
  · rw [copy_with_update_precedence _ _ _ _ _ _ h "PREFECT_ORION_API_HOST"]
    rfl
  · rw [copy_with_update_precedence _ _ _ _ _ _ h "PREFECT_LOGGING_SERVER_LEVEL"]
    rfl

def emptyExplicitBase : Settings := ⟨fun _ => none⟩

/-- C3 counterexample: under a process environment defining
`PREFECT_API_KEY`, `copy_with_update` with empty arguments on a base in which
that setting is unset yields a snapshot in which it is explicitly set (the
class constructor marks environment-sourced fields as set), refuting exact
preservation of the explicitly-set name set. -/
theorem copy_with_update_empty_marks_env_set :
    ∃ res,
      emptyExplicitBase.copy_with_update envWithKey emptyPDict emptyPDict [] =
        Except.ok res ∧
      (emptyExplicitBase.explicitVals "PREFECT_API_KEY").isSome = false ∧
      (res.explicitVals "PREFECT_API_KEY").isSome = true := by
  have h : emptyExplicitBase.copy_with_update envWithKey emptyPDict emptyPDict
      [] =
      Except.ok ⟨pyUnion (envLayer envWithKey)
        (pyUnion
          (pyUnion emptyPDict
            (fun k => if k ∈ ([] : List String) then none
              else emptyExplicitBase.explicitVals k))
          emptyPDict)⟩ := rfl
  exact ⟨_, h, by decide, by decide⟩

/-- C3 (amended): whenever `copy_with_update` with empty arguments succeeds,
a setting is explicitly set in the result exactly when it was explicitly set
in the base or its environment variable is present: no set setting becomes
unset, and an unset setting becomes set precisely when the environment
defines it (so exact preservation holds exactly when the environment adds no
declared name not already set, e.g. under an empty environment). -/
theorem copy_with_update_empty_set_status (s : Settings) (env : PDict)
    (res : Settings)
    (h : s.copy_with_update env emptyPDict emptyPDict [] = Except.ok res)
    (k : String) :
    (res.explicitVals k).isSome =
      ((s.explicitVals k).isSome || (envLayer env k).isSome) := by
  unfold Settings.copy_with_update settingsNew at h
  split at h
  · simp at h
  · injection h with h
    subst h
    simp only [pyUnion, emptyPDict]
    simp only [List.not_mem_nil, if_false]
    cases hs : s.explicitVals k with
    | some v => simp [hs]
    | none =>
      simp only [hs]
      cases he : envLayer env k <;> simp [he]

def preserveBase : Settings :=
  ⟨fun k => if k = "PREFECT_DEBUG_MODE" then some (PValue.vBool true) else none⟩

theorem copy_with_update_empty_set_status_witness :
    ∃ res,
      preserveBase.copy_with_update envWithKey emptyPDict emptyPDict [] =
        Except.ok res ∧
      (res.explicitVals "PREFECT_DEBUG_MODE").isSome =
        ((preserveBase.explicitVals "PREFECT_DEBUG_MODE").isSome ||
          (envLayer envWithKey "PREFECT_DEBUG_MODE").isSome) ∧
      (res.explicitVals "PREFECT_API_KEY").isSome =
        ((preserveBase.explicitVals "PREFECT_API_KEY").isSome ||
          (envLayer envWithKey "PREFECT_API_KEY").isSome) ∧
      (res.explicitVals "PREFECT_API_URL").isSome =
        ((preserveBase.explicitVals "PREFECT_API_URL").isSome ||
          (envLayer envWithKey "PREFECT_API_URL").isSome) := by
  have h : preserveBase.copy_with_update envWithKey emptyPDict emptyPDict [] =
      Except.ok ⟨pyUnion (envLayer envWithKey)
        (pyUnion
          (pyUnion emptyPDict
            (fun k => if k ∈ ([] : List String) then none
              else preserveBase.explicitVals k))
          emptyPDict)⟩ := rfl
  exact ⟨_, h, copy_with_update_empty_set_status _ _ _ h _,
    copy_with_update_empty_set_status _ _ _ h _,
    copy_with_update_empty_set_status _ _ _ h _⟩

/-- C8: for any keyword assignment under any process environment, constructing
a `Settings` snapshot raises the validation error naming both logging
settings exactly when the resolved max log size exceeds the resolved batch
size, and otherwise the cross-setting validation pass succeeds with all
values unchanged.  (On the claim's domain — a full assignment of raw values —
the keyword arguments shadow the environment entirely.) -/
theorem settings_validation_spec (env e : PDict) (b m : Int)
    (hb : (pyUnion (envLayer env) e "PREFECT_LOGGING_ORION_BATCH_SIZE").getD
        (defaultOf "PREFECT_LOGGING_ORION_BATCH_SIZE") = PValue.vInt b)
    (hm : (pyUnion (envLayer env) e "PREFECT_LOGGING_ORION_MAX_LOG_SIZE").getD
        (defaultOf "PREFECT_LOGGING_ORION_MAX_LOG_SIZE") = PValue.vInt m) :
    (settingsNew env e =
        Except.error
          "`PREFECT_LOGGING_ORION_MAX_LOG_SIZE` cannot be larger than `PREFECT_LOGGING_ORION_BATCH_SIZE`"
      ↔ b < m) ∧
    (m ≤ b → settingsNew env e = Except.ok ⟨pyUnion (envLayer env) e⟩) := by
  unfold settingsNew max_log_size_smaller_than_batch_size
  simp only [hb, hm, intLt]
  constructor
  · by_cases hlt : b < m
    · simp [hlt]
    · simp [hlt]
  · intro hle
    have hlt : ¬ b < m := not_lt.mpr hle
    simp [hlt]

theorem settings_validation_spec_witness :
    settingsNew emptyPDict emptyPDict =
      Except.ok ⟨pyUnion (envLayer emptyPDict) emptyPDict⟩ ∧
    settingsNew emptyPDict (fun k =>
        if k = "PREFECT_LOGGING_ORION_MAX_LOG_SIZE" then some (PValue.vInt 5000000)
        else none) =
      Except.error
        "`PREFECT_LOGGING_ORION_MAX_LOG_SIZE` cannot be larger than `PREFECT_LOGGING_ORION_BATCH_SIZE`" := by
  constructor
  · exact (settings_validation_spec emptyPDict emptyPDict 4000000 1000000
      (by decide) (by decide)).2 (by decide)
  · exact (settings_validation_spec emptyPDict _ 4000000 5000000 (by decide)
      (by decide)).1.mpr (by decide)

/-- C7: `set_active` with a non-null name absent from the collection raises an
error naming that profile and leaves the collection (in particular its active
name) exactly as it was; `set_active(None)` succeeds and clears the active
name. -/
theorem set_active_spec (c : ProfilesCollection) (n : String)
    (h : c.profiles_by_name n = none) :
    (c.set_active (some n)).2 = some ("Unknown profile name " ++ pyRepr n ++ ".") ∧
    (c.set_active (some n)).1 = c ∧
    (c.set_active (some n)).1.active_name = c.active_name ∧
    (c.set_active none).1.active_name = none ∧
    (c.set_active none).2 = none := by
  unfold ProfilesCollection.set_active
  simp [h]

def missingProfileColl : ProfilesCollection :=
  ⟨fun n => if n = "default" then some ⟨"default", emptyPDict, none⟩ else none,
   some "default"⟩

theorem set_active_spec_witness :
    (missingProfileColl.set_active (some "missing")).2 =
      some ("Unknown profile name " ++ pyRepr "missing" ++ ".") ∧
    (missingProfileColl.set_active (some "missing")).1 = missingProfileColl ∧
    (missingProfileColl.set_active (some "missing")).1.active_name =
      missingProfileColl.active_name ∧
    (missingProfileColl.set_active none).1.active_name = none ∧
    (missingProfileColl.set_active none).2 = none :=
  set_active_spec missingProfileColl "missing" rfl

def loneProfile : Profile := ⟨"a", emptyPDict, none⟩

def loneProfileColl : ProfilesCollection :=
  ⟨fun n => if n = "a" then some loneProfile else none, some "a"⟩

/-- C6 counterexample: on the collection whose only profile is `"a"` and whose
active name is `"a"`, `remove_profile("a")` raises no error yet yields a
collection whose active name `"a"` is no longer among its profile names,
refuting the claim that every collection operation either raises or keeps the
active name bound to an existing profile. -/
theorem remove_profile_breaks_active :
    (loneProfileColl.remove_profile "a").2 = none ∧
    (loneProfileColl.remove_profile "a").1.active_name = some "a" ∧
    (loneProfileColl.remove_profile "a").1.profiles_by_name "a" = none ∧
    activeValid (loneProfileColl.remove_profile "a").1 = false := by
  refine ⟨rfl, rfl, rfl, rfl⟩

/-- C6 (amended): on collections satisfying the active-name invariant,
`set_active`, `update_profile` and `with_new_profiles` always yield a
collection whose active name, if set, exists as a profile name (with
`set_active` raising rather than breaking it); `remove_profile` and
`without_profile_source`, by contrast, can remove the active profile while
keeping the dangling active name. -/
theorem activeValid_lookup (c : ProfilesCollection) (a : String)
    (h : activeValid c = true) (ha : c.active_name = some a) :
    (c.profiles_by_name a).isSome = true := by
  unfold activeValid at h
  rw [ha] at h
  exact h

theorem collection_ops_preserve_active (c other : ProfilesCollection)
    (p : Profile) (n : Option String)
    (hc : activeValid c = true) (ho : activeValid other = true) :
    activeValid (c.set_active n).1 = true ∧
    activeValid (c.update_profile p) = true ∧
    activeValid (c.with_new_profiles other) = true := by
  refine ⟨?_, ?_, ?_⟩
  · unfold ProfilesCollection.set_active
    match n with
    | some m =>
      by_cases hm : (c.profiles_by_name m).isSome
      · simp [hm, activeValid]
      · simp [hm, hc]
    | none => simp [activeValid]
  · unfold ProfilesCollection.update_profile
    match hact : c.active_name with
    | some a =>
      have hmem := activeValid_lookup c a hc hact
      cases hex : c.profiles_by_name p.name <;>
      · unfold activeValid
        simp only [hact]
        by_cases hap : a = p.name
        · simp [hap]
        · simp [hap, hmem]
    | none =>
      cases hex : c.profiles_by_name p.name <;>
      · unfold activeValid
        simp [hact]
  · unfold ProfilesCollection.with_new_profiles
    unfold activeValid
    simp only [pyOrStr]
    match hoact : other.active_name with
    | some a =>
      by_cases ha : a = ""
      · subst ha
        simp only [if_pos rfl]
        match hcact : c.active_name with
        | some b =>
          have hmem := activeValid_lookup c b hc hcact
          cases hob : other.profiles_by_name b
          · simp [hob, hmem]
          · simp [hob]
        | none => simp
      · simp only [if_neg ha]
        have hmem := activeValid_lookup other a ho hoact
        cases hoa : other.profiles_by_name a
        · rw [hoa] at hmem
          simp at hmem
        · simp [hoa]
    | none =>
      match hcact : c.active_name with
      | some b =>
        have hmem := activeValid_lookup c b hc hcact
        cases hob : other.profiles_by_name b
        · simp [hob, hmem]
        · simp [hob]
      | none => simp

def otherProfileColl : ProfilesCollection :=
  ⟨fun n => if n = "b" then some ⟨"b", emptyPDict, none⟩ else none, some "b"⟩

theorem collection_ops_preserve_active_witness :
    activeValid (loneProfileColl.set_active (some "missing")).1 = true ∧
    activeValid (loneProfileColl.update_profile ⟨"c", emptyPDict, none⟩) = true ∧
    activeValid (loneProfileColl.with_new_profiles otherProfileColl) = true :=
  collection_ops_preserve_active loneProfileColl otherProfileColl
    ⟨"c", emptyPDict, none⟩ (some "missing") rfl rfl

/-- C4: updating profile `n` with settings `U` merges `U` over the existing
override map with `U` winning, removes every key mapped to `None` in the
union, stores the merged profile, and returns the merged settings; when `n`
is absent a new profile named `n` is created and its settings returned. -/
theorem update_profile_merge_spec (c : ProfilesCollection) (n : String)
    (U : PDict) :
    (∀ ex, c.profiles_by_name n = some ex →
      (update_profile c n U).1.profiles_by_name n =
        some ⟨n, dropNones (pyUnion ex.settings U), none⟩ ∧
      (update_profile c n U).2 = dropNones (pyUnion ex.settings U)) ∧
    (c.profiles_by_name n = none →
      (update_profile c n U).1.profiles_by_name n = some ⟨n, U, none⟩ ∧
      (update_profile c n U).2 = U) := by
  constructor
  · intro ex hex
    unfold update_profile ProfilesCollection.update_profile
    simp [hex]
  · intro hnone
    unfold update_profile ProfilesCollection.update_profile
    simp [hnone]

def mergeExisting : Profile :=
  ⟨"dev",
   fun k =>
     if k = "PREFECT_API_KEY" then some (PValue.vStr "1")
     else if k = "PREFECT_LOGGING_LEVEL" then some (PValue.vStr "DEBUG")
     else none,
   none⟩

def mergeColl : ProfilesCollection :=
  ⟨fun n => if n = "dev" then some mergeExisting else none, none⟩

def mergeUpdate : PDict := fun k =>
  if k = "PREFECT_API_KEY" then some (PValue.vStr "2")
  else if k = "PREFECT_LOGGING_LEVEL" then some PValue.vNone
  else none

theorem update_profile_merge_spec_witness :
    (update_profile mergeColl "dev" mergeUpdate).2 "PREFECT_API_KEY" =
      some (PValue.vStr "2") ∧
    (update_profile mergeColl "dev" mergeUpdate).2 "PREFECT_LOGGING_LEVEL" =
      none := by
  have h := (update_profile_merge_spec mergeColl "dev" mergeUpdate).1
    mergeExisting rfl
  rw [h.2]
  exact ⟨rfl, rfl⟩

/-- C10: `ProfilesCollection.update_profile` with a name not already present
stores the given profile verbatim, keeping `None`-valued settings in the
stored override map instead of dropping them as the merge path does. -/
theorem update_profile_fresh_verbatim (c : ProfilesCollection) (p : Profile)
    (h : c.profiles_by_name p.name = none) :
    (c.update_profile p).profiles_by_name p.name = some p := by
  unfold ProfilesCollection.update_profile
  simp [h]

def freshNoneProfile : Profile :=
  ⟨"fresh",
   fun k => if k = "PREFECT_API_KEY" then some PValue.vNone else none,
   none⟩

theorem update_profile_fresh_verbatim_witness :
    ∃ q,
      (mergeColl.update_profile freshNoneProfile).profiles_by_name "fresh" =
        some q ∧
      q.settings "PREFECT_API_KEY" = some PValue.vNone := by
  refine ⟨freshNoneProfile, ?_, rfl⟩
  exact update_profile_fresh_verbatim mergeColl freshNoneProfile rfl

/-- A document entry whose key is not a registered setting name. -/
def badKey (kv : String × TomlVal) : Bool := !(isDeclared kv.1)

theorem map_names_error_of_bad (l : List (String × TomlVal))
    (hbad : l.any badKey = true) :
    ∃ bk, isDeclared bk = false ∧ bk ∈ l.map Prod.fst ∧
      map_names_to_settings l =
        Except.error ("Unknown setting " ++ pyRepr bk ++ ".") := by
  induction l with
  | nil => simp at hbad
  | cons kv rest ih =>
    by_cases hk : isDeclared kv.1 = true
    · have hrest : rest.any badKey = true := by
        simp [List.any_cons, badKey, hk] at hbad
        simpa [badKey] using hbad
      obtain ⟨bk, h1, h2, h3⟩ := ih hrest
      refine ⟨bk, h1, by simp [h2], ?_⟩
      unfold map_names_to_settings
      simp [hk, h3]
    · refine ⟨kv.1, by simpa using hk, by simp, ?_⟩
      unfold map_names_to_settings
      simp [hk]

theorem map_names_error_form (l : List (String × TomlVal)) (e : String)
    (h : map_names_to_settings l = Except.error e) :
    ∃ bk, isDeclared bk = false ∧ bk ∈ l.map Prod.fst ∧
      e = "Unknown setting " ++ pyRepr bk ++ "." := by
  induction l with
  | nil =>
    unfold map_names_to_settings at h
    simp at h
  | cons kv rest ih =>
    unfold map_names_to_settings at h
    by_cases hk : isDeclared kv.1 = true
    · simp only [hk, if_true] at h
      cases hrest : map_names_to_settings rest with
      | error e2 =>
        simp only [hrest] at h
        injection h with h
        subst h
        obtain ⟨bk, h1, h2, h3⟩ := ih hrest
        exact ⟨bk, h1, by simp [h2], h3⟩
      | ok tl =>
        simp only [hrest] at h
        exact absurd h (by simp)
    · simp only [hk, if_false] at h
      injection h with h
      exact ⟨kv.1, by simpa using hk, by simp, h.symm⟩

theorem profiles_load_error (path : String)
    (ps : List (String × List (String × TomlVal)))
    (hbad : ps.any (fun p => p.2.any badKey) = true) :
    ∃ pn pset bk,
      (pn, pset) ∈ ps ∧ bk ∈ pset.map Prod.fst ∧ isDeclared bk = false ∧
      mapExcept
        (fun p =>
          match map_names_to_settings p.2 with
          | Except.error e => Except.error e
          | Except.ok s => Except.ok (⟨p.1, s, some path⟩ : RawProfile))
        ps = Except.error ("Unknown setting " ++ pyRepr bk ++ ".") := by
  induction ps with
  | nil => simp at hbad
  | cons p rest ih =>
    by_cases hp : p.2.any badKey = true
    · obtain ⟨bk, h1, h2, h3⟩ := map_names_error_of_bad p.2 hp
      refine ⟨p.1, p.2, bk, by simp, h2, h1, ?_⟩
      unfold mapExcept
      simp [h3]
    · have hrest : rest.any (fun p => p.2.any badKey) = true := by
        simp only [List.any_cons, hp] at hbad
        simpa using hbad
      obtain ⟨pn, pset, bk, h1, h2, h3, h4⟩ := ih hrest
      refine ⟨pn, pset, bk, List.mem_cons_of_mem _ h1, h2, h3, ?_⟩
      unfold mapExcept
      cases hmap : map_names_to_settings p.2 with
      | error e =>
        exfalso
        obtain ⟨bk2, hb1, hb2, _⟩ := map_names_error_form p.2 e hmap
        obtain ⟨kv, hkv, hkv1⟩ := List.mem_map.mp hb2
        apply hp
        refine List.any_eq_true.mpr ⟨kv, hkv, ?_⟩
        simp [badKey, hkv1, hb1]
      | ok s => simp [hmap, h4]

/-- C5: a profiles document containing, under any profile, a key that is not a
registered setting name (a nested table being one such entry) fails to load as
a whole: `read_profiles_from` returns an error naming an offending key of the
document, and no collection or profile is produced. -/
theorem load_rejects_unknown_keys (path : String) (doc : ProfilesDoc)
    (hbad : doc.profiles.any (fun p => p.2.any badKey) = true) :
    ∃ pn pset bk,
      (pn, pset) ∈ doc.profiles ∧ bk ∈ pset.map Prod.fst ∧
      isDeclared bk = false ∧
      read_profiles_from path doc =
        Except.error ("Unknown setting " ++ pyRepr bk ++ ".") := by
  obtain ⟨pn, pset, bk, h1, h2, h3, h4⟩ :=
    profiles_load_error path doc.profiles hbad
  refine ⟨pn, pset, bk, h1, h2, h3, ?_⟩
  unfold read_profiles_from
  simp [h4]

def badDoc : ProfilesDoc :=
  ⟨some "foo",
   [("foo",
     [("PREFECT_API_KEY", TomlVal.prim (PValue.vStr "x")),
      ("nested", TomlVal.table [("PREFECT_API_URL", TomlVal.prim (PValue.vStr "y"))])])]⟩

theorem load_rejects_unknown_keys_witness :
    ∃ pn pset bk,
      (pn, pset) ∈ badDoc.profiles ∧ bk ∈ pset.map Prod.fst ∧
      isDeclared bk = false ∧
      read_profiles_from "profiles.toml" badDoc =
        Except.error ("Unknown setting " ++ pyRepr bk ++ ".") :=
  load_rejects_unknown_keys "profiles.toml" badDoc (by decide)

def noneTimeoutSettings : Settings :=
  ⟨fun k =>
    if k = "PREFECT_ORION_DATABASE_TIMEOUT" then some PValue.vNone else none⟩

/-- C2 counterexample: the snapshot that explicitly sets
`PREFECT_ORION_DATABASE_TIMEOUT` (declared default `1`) to `None` is not
reproduced by re-resolving its own environment export, in either export mode:
the `None` value is omitted from the export, so re-resolution falls back to
the declared default `1`. -/
theorem roundtrip_fails_on_explicit_none :
    ¬ ((resolve_from_environment
          (noneTimeoutSettings.to_environment_variables true)).rawValue
            "PREFECT_ORION_DATABASE_TIMEOUT" =
        noneTimeoutSettings.rawValue "PREFECT_ORION_DATABASE_TIMEOUT") ∧
    ¬ ((resolve_from_environment
          (noneTimeoutSettings.to_environment_variables false)).rawValue
            "PREFECT_ORION_DATABASE_TIMEOUT" =
        noneTimeoutSettings.rawValue "PREFECT_ORION_DATABASE_TIMEOUT") := by
  constructor
  · intro h
    exact absurd h (by decide)
  · intro h
    exact absurd h (by decide)

/-- C2 (amended): for every snapshot in which each declared setting whose raw
value is `None` also has declared default `None` (in particular any snapshot
that does not explicitly null a setting with a non-`None` default),
re-resolving the snapshot from its own exported environment-variable mapping
reproduces the raw value of every declared setting, for both export modes. -/
theorem roundtrip_amended (s : Settings) (ex : Bool)
    (hnone : ∀ k ∈ settingNames,
      s.rawValue k = PValue.vNone → defaultOf k = PValue.vNone)
    (k : String) (hk : k ∈ settingNames) :
    (resolve_from_environment (s.to_environment_variables ex)).rawValue k =
      s.rawValue k := by
  have hdecl : isDeclared k = true := by
    unfold isDeclared List.contains
    exact List.elem_eq_true_of_mem hk
  have hrv := hnone k hk
  unfold Settings.rawValue at hrv
  unfold Settings.rawValue resolve_from_environment
    Settings.to_environment_variables
  simp only [hdecl, if_true]
  cases ex with
  | false =>
    simp only [Bool.false_eq_true, if_false]
    by_cases hz : (s.explicitVals k).getD (defaultOf k) = PValue.vNone
    · simp only [Settings.rawValue, hrv hz]
      have hz2 : (s.explicitVals k).getD PValue.vNone = PValue.vNone := by
        rw [hrv hz] at hz
        exact hz
      simp [hz2]
    · simp only [Settings.rawValue]
      simp [hz]
  | true =>
    simp only [if_true]
    cases hv : s.explicitVals k with
    | none => simp
    | some v =>
      by_cases hz : v = PValue.vNone
      · have hd : defaultOf k = PValue.vNone := hrv (by simp [hv, hz])
        simp [hz, hd, hv]
      · simp [hz, hv]

def roundtripSample : Settings :=
  ⟨fun k => if k = "PREFECT_API_KEY" then some (PValue.vStr "token") else none⟩

theorem roundtrip_amended_witness :
    (resolve_from_environment
        (roundtripSample.to_environment_variables true)).rawValue
          "PREFECT_API_KEY" =
      roundtripSample.rawValue "PREFECT_API_KEY" :=
  roundtrip_amended roundtripSample true (by decide) "PREFECT_API_KEY"
    (by decide)

theorem cacheLookup_append (l1 l2 : List (List (String × String) × Nat))
    (key : List (String × String)) :
    cacheLookup (l1 ++ l2) key =
      match cacheLookup l1 key with
      | some i => some i
      | none => cacheLookup l2 key := by
  induction l1 with
  | nil => simp [cacheLookup]
  | cons p rest ih =>
    rcases p with ⟨k, i⟩
    simp only [List.cons_append, cacheLookup]
    by_cases hk : k = key
    · simp [hk]
    · simp [hk, ih]

theorem get_settings_from_env_of_lookup (env : List (String × String))
    (st : EnvCacheState) (i : Nat)
    (h : cacheLookup st.entries env = some i) :
    get_settings_from_env env st = (i, st) := by
  unfold get_settings_from_env
  simp [h]

theorem get_settings_from_env_hit (env : List (String × String))
    (st : EnvCacheState) :
    cacheLookup (get_settings_from_env env st).2.entries env =
      some (get_settings_from_env env st).1 := by
  unfold get_settings_from_env
  cases hl : cacheLookup st.entries env with
  | some i => simpa using hl
  | none =>
    simp only []
    rw [cacheLookup_append]
    simp [hl, cacheLookup]

theorem cacheLookup_mono (st : EnvCacheState) (e key : List (String × String))
    (i : Nat) (h : cacheLookup st.entries key = some i) :
    cacheLookup (get_settings_from_env e st).2.entries key = some i := by
  unfold get_settings_from_env
  cases hl : cacheLookup st.entries e with
  | some j => simpa using h
  | none =>
    simp only []
    rw [cacheLookup_append]
    simp [h]

theorem cacheLookup_foldl_mono (key : List (String × String)) (i : Nat)
    (es : List (List (String × String))) :
    ∀ st : EnvCacheState, cacheLookup st.entries key = some i →
      cacheLookup
        ((es.foldl (fun s e => (get_settings_from_env e s).2) st)).entries key =
        some i := by
  induction es with
  | nil =>
    intro st h
    simpa using h
  | cons e rest ih =>
    intro st h
    exact ih _ (cacheLookup_mono st e key i h)

/-- C9: a call to `get_settings_from_env` under environment content `env`,
followed by any sequence of calls under other environment contents, followed
by another call under the identical environment content `env`, returns the
very instance cached by the first call, and the second identical call
constructs nothing: its cache state is unchanged. -/
theorem get_settings_from_env_cached (env : List (String × String))
    (st : EnvCacheState) (others : List (List (String × String))) :
    get_settings_from_env env
        (others.foldl (fun s e => (get_settings_from_env e s).2)
          (get_settings_from_env env st).2) =
      ((get_settings_from_env env st).1,
        others.foldl (fun s e => (get_settings_from_env e s).2)
          (get_settings_from_env env st).2) := by
  apply get_settings_from_env_of_lookup
  exact cacheLookup_foldl_mono env _ others _ (get_settings_from_env_hit env st)
